import Mathlib

/-!
Shallow embedding of the repository source file `src/column.rs`:
the `ChunkedArray<T>` wrapper, its constructor `new`, `copy_with_array`,
`clone`, and the arithmetic operator implementations produced by the
`variant_operand` macro, together with models of the small surface of the
external arrow library the file calls into (primitive builders, type-erased
array handles with `downcast_ref`, and the `compute` math kernels).

Modelling conventions:
- The integer primitive types of arrow (the instantiations of its
  `ArrowPrimitiveType` / `ArrowNumericType` traits used with integer native
  values) are the inductive `ArrowPrimitiveType`; native w-bit values are
  `Int` with wrapping at width w applied by the compute kernels.
- `ArrayRef` (`Arc<dyn Array>`) is modelled as a `PrimitiveArray` carrying
  its runtime element type in the `dtype` tag, since every array built or
  consumed by this repository is a primitive array; `downcast_ref` checks
  the tag and returns `Option`.
- A Rust panic (from `unwrap` / `expect`) is modelled as `Except.error msg`
  where `msg` is the panic message; `.ok` is normal return.  The repository
  never constructs a value of its own `Result`/`PolarsError` type, so every
  `.error` in this development is an abrupt panic, not a handled error.
-/

namespace Polars

/-- The integer primitive types of the external arrow library
(instantiations of the `ArrowPrimitiveType` trait; the model covers the
integer widths, which is what the repository test exercises). -/
inductive ArrowPrimitiveType where
  | int8
  | int16
  | int32
  | int64
  | uint8
  | uint16
  | uint32
  | uint64
deriving DecidableEq

/-- Bit width w of the native value of each primitive type. -/
def ArrowPrimitiveType.width : ArrowPrimitiveType → Nat
  | .int8 => 8
  | .uint8 => 8
  | .int16 => 16
  | .uint16 => 16
  | .int32 => 32
  | .uint32 => 32
  | .int64 => 64
  | .uint64 => 64

/-- Whether the native value of the primitive type is signed. -/
def ArrowPrimitiveType.isSigned : ArrowPrimitiveType → Bool
  | .int8 => true
  | .int16 => true
  | .int32 => true
  | .int64 => true
  | _ => false

/-- Model of the arrow `DataType` enum, restricted to the variants
reachable from the primitive types above. -/
inductive DataType where
  | int8
  | int16
  | int32
  | int64
  | uint8
  | uint16
  | uint32
  | uint64
deriving DecidableEq

/-- Model of `K::get_data_type()` of the arrow `ArrowPrimitiveType` trait. -/
def ArrowPrimitiveType.get_data_type : ArrowPrimitiveType → DataType
  | .int8 => .int8
  | .int16 => .int16
  | .int32 => .int32
  | .int64 => .int64
  | .uint8 => .uint8
  | .uint16 => .uint16
  | .uint32 => .uint32
  | .uint64 => .uint64

/-- Wrapping of an unbounded integer into the range of a width-w native
integer type: the value congruent to `x` modulo `2 ^ w` that lies in the
representable range ([0, 2^w) unsigned, [-2^(w-1), 2^(w-1)) signed). -/
def wrapNative (t : ArrowPrimitiveType) (x : Int) : Int :=
  if t.isSigned then (x + 2 ^ (t.width - 1)) % 2 ^ t.width - 2 ^ (t.width - 1)
  else x % 2 ^ t.width

/-- Model of the arrow `Field` schema type: name, logical data type and
nullability flag, as produced by `Field::new(name, data_type, nullable)`. -/
structure Field where
  name : String
  data_type : DataType
  nullable : Bool
deriving DecidableEq

/-- Model of an arrow `PrimitiveArray<T>`: the runtime element type tag
`dtype` (the `T` the concrete Rust type was instantiated at), the native
values and the validity bitmap (`true` = present, `false` = null). -/
structure PrimitiveArray where
  dtype : ArrowPrimitiveType
  values : List Int
  validity : List Bool
deriving DecidableEq

/-- `ArrayRef` is `Arc<dyn Array>`; in this program every array is a
primitive array, so the type-erased handle is the tagged array itself. -/
abbrev ArrayRef := PrimitiveArray

/-- `Array::len()`: number of elements of the array. -/
def PrimitiveArray.len (a : PrimitiveArray) : Nat := a.values.length

/-- Model of `array.as_any().downcast_ref::<PrimitiveArray<t>>()`: succeeds
with the concrete array exactly when the runtime element type is `t`. -/
def downcast_ref (t : ArrowPrimitiveType) (a : ArrayRef) : Option PrimitiveArray :=
  if a.dtype = t then some a else none

/-- Model of the shared `math_op` helper behind the arrow compute kernels
`add` / `subtract` / `multiply`: an error when the two arrays have
different lengths, otherwise the elementwise native operation (wrapping at
the element width) with the validity bitmaps combined by AND. -/
def math_op (f : Int → Int → Int) (left right : PrimitiveArray) :
    Except String PrimitiveArray :=
  if left.values.length = right.values.length then
    .ok { dtype := left.dtype
          values := List.zipWith (fun x y => wrapNative left.dtype (f x y))
            left.values right.values
          validity := List.zipWith (fun x y => x && y) left.validity right.validity }
  else
    .error "Cannot perform math operation on arrays of different length"

/-- Model of `arrow::compute::add`. -/
def compute.add : PrimitiveArray → PrimitiveArray → Except String PrimitiveArray :=
  math_op (fun x y => x + y)

/-- Model of `arrow::compute::subtract`. -/
def compute.subtract : PrimitiveArray → PrimitiveArray → Except String PrimitiveArray :=
  math_op (fun x y => x - y)

/-- Model of `arrow::compute::multiply`. -/
def compute.multiply : PrimitiveArray → PrimitiveArray → Except String PrimitiveArray :=
  math_op (fun x y => x * y)

/-- Model of the arrow `PrimitiveBuilder<K>`: the element type and the
values appended so far (this repository appends no nulls). -/
structure PrimitiveBuilder where
  dtype : ArrowPrimitiveType
  values : List Int

/-- Model of `PrimitiveBuilder::<K>::new(capacity)`: an empty builder (the
capacity is an allocation hint with no observable effect on contents). -/
def PrimitiveBuilder.new (k : ArrowPrimitiveType) (_capacity : Nat) : PrimitiveBuilder :=
  { dtype := k, values := [] }

/-- Model of `builder.append_value(v)`: fallible in the arrow API, but for
a primitive builder the append of a native value succeeds. -/
def PrimitiveBuilder.append_value (b : PrimitiveBuilder) (v : Int) :
    Except String PrimitiveBuilder :=
  .ok { b with values := b.values ++ [v] }

/-- Model of `builder.finish()`: the immutable array of the appended
values, all slots valid. -/
def PrimitiveBuilder.finish (b : PrimitiveBuilder) : PrimitiveArray :=
  { dtype := b.dtype, values := b.values
    validity := List.replicate b.values.length true }

/-- The panic message of `Option::unwrap()` on `None` (the downcast
unwraps in `variant_operand`). -/
def unwrapNoneMsg : String := "called Option::unwrap() on a None value"

/-- The `ChunkedArray<T>` struct of `src/column.rs`.  The phantom type
parameter `T` (Rust `PhantomData<T>`) is carried as the explicit field
`phantom`: it is the downcast target of the arithmetic operators. -/
structure ChunkedArray where
  field : Field
  chunks : List ArrayRef
  /-- sum of all chunk lengths -/
  len : Nat
  /-- sum of all chunk nulls -/
  null_counts : Nat
  phantom : ArrowPrimitiveType
deriving DecidableEq

/-- The loop body of `ChunkedArray::new`: each `append_value` result is
unwrapped with `expect("Could not append value")`, modelled as the panic
message prefix on the error path. -/
def appendStep (b : PrimitiveBuilder) (val : Int) : Except String PrimitiveBuilder :=
  match b.append_value val with
  | .ok b2 => .ok b2
  | .error e => .error ("Could not append value: " ++ e)

/-- `ChunkedArray::<T>::new::<K>(name, v)` of `src/column.rs`: build a
`PrimitiveBuilder<K>`, append every value of `v` (panicking on a failed
append), and wrap the finished array as the single chunk, with
`Field::new(name, K::get_data_type(), true)`, `len = v.len()` and
`null_counts = 0`.  The builder type `K` is independent of the phantom
parameter `T`. -/
def ChunkedArray.new (T K : ArrowPrimitiveType) (name : String) (v : List Int) :
    Except String ChunkedArray :=
  match v.foldlM appendStep (PrimitiveBuilder.new K v.length) with
  | .error e => .error e
  | .ok builder =>
    .ok { field := { name := name, data_type := K.get_data_type, nullable := true }
          chunks := [builder.finish]
          len := v.length
          null_counts := 0
          phantom := T }

/-- `copy_with_array` of `src/column.rs`: keep field, len and null_counts,
replace the chunks. -/
def ChunkedArray.copy_with_array (self : ChunkedArray) (arr : List ArrayRef) :
    ChunkedArray :=
  { field := self.field
    chunks := arr
    len := self.len
    null_counts := self.null_counts
    phantom := self.phantom }

/-- The per-pair loop of the `variant_operand` macro over the zipped chunk
lists: downcast both sides to `PrimitiveArray<t>` (unwrap panics on a
failed downcast), run the compute kernel (`expect(expectMsg)` panics on a
kernel error), and collect the result chunks.  The Rust `for_each` panics
at the first failing pair, which the early `.error` return models. -/
def variantChunks (t : ArrowPrimitiveType)
    (operand : PrimitiveArray → PrimitiveArray → Except String PrimitiveArray)
    (expectMsg : String) :
    List (ArrayRef × ArrayRef) → Except String (List ArrayRef)
  | [] => .ok []
  | (l, r) :: rest =>
    match downcast_ref t l with
    | none => .error unwrapNoneMsg
    | some left =>
      match downcast_ref t r with
      | none => .error unwrapNoneMsg
      | some right =>
        match operand left right with
        | .error e => .error (expectMsg ++ ": " ++ e)
        | .ok res =>
          match variantChunks t operand expectMsg rest with
          | .ok tail => .ok (res :: tail)
          | .error e => .error e

/-- The `variant_operand!` macro of `src/column.rs`: zip the two chunk
lists, apply the kernel per pair, and rebuild via `copy_with_array`. -/
def variant_operand (t : ArrowPrimitiveType)
    (operand : PrimitiveArray → PrimitiveArray → Except String PrimitiveArray)
    (expectMsg : String) (self rhs : ChunkedArray) : Except String ChunkedArray :=
  match variantChunks t operand expectMsg (self.chunks.zip rhs.chunks) with
  | .ok new_chunks => .ok (self.copy_with_array new_chunks)
  | .error e => .error e

/-- `impl Add for &ChunkedArray<T>`: `variant_operand![self, rhs, T, add,
"Could not add, check data types and length"]`. -/
def ChunkedArray.add (self rhs : ChunkedArray) : Except String ChunkedArray :=
  variant_operand self.phantom compute.add
    "Could not add, check data types and length" self rhs

/-- `impl Sub for &ChunkedArray<T>`: `variant_operand![self, rhs, T,
subtract, "Could not subtract, check data types and length"]`. -/
def ChunkedArray.sub (self rhs : ChunkedArray) : Except String ChunkedArray :=
  variant_operand self.phantom compute.subtract
    "Could not subtract, check data types and length" self rhs

/-- `impl Mul for &ChunkedArray<T>`: `variant_operand!(self, rhs, T,
multiply, "Could not multiply, check data types and length")`. -/
def ChunkedArray.mul (self rhs : ChunkedArray) : Except String ChunkedArray :=
  variant_operand self.phantom compute.multiply
    "Could not multiply, check data types and length" self rhs

/-- `impl Add for ChunkedArray<T>` (owned operands): `(&self).add(&rhs)`. -/
def ChunkedArray.addOwned (self rhs : ChunkedArray) : Except String ChunkedArray :=
  self.add rhs

/-- `impl Sub for ChunkedArray<T>` (owned operands): `(&self).sub(&rhs)`. -/
def ChunkedArray.subOwned (self rhs : ChunkedArray) : Except String ChunkedArray :=
  self.sub rhs

/-- `impl Mul for ChunkedArray<T>` (owned operands): `(&self).mul(&rhs)`. -/
def ChunkedArray.mulOwned (self rhs : ChunkedArray) : Except String ChunkedArray :=
  self.mul rhs

/-- `impl Clone for ChunkedArray<T>`: clone the field, clone the chunk
vector (each entry an `Arc` sharing the same underlying array), copy `len`
and `null_counts`. -/
def ChunkedArray.clone (self : ChunkedArray) : ChunkedArray :=
  { field := self.field
    chunks := self.chunks
    len := self.len
    null_counts := self.null_counts
    phantom := self.phantom }

/-- The sum of the lengths of the chunks of a `ChunkedArray` (the quantity
the `len` field documents itself as caching). -/
def chunkLenSum (c : ChunkedArray) : Nat :=
  (c.chunks.map PrimitiveArray.len).sum

/-- The `ChunkedArray` values reachable through the public surface of the
repository: results of `new`, of `clone`, and of the non-panicking
applications of the three arithmetic operators. -/
inductive Reachable : ChunkedArray → Prop where
  | new (T K : ArrowPrimitiveType) (name : String) (v : List Int)
      (c : ChunkedArray) : ChunkedArray.new T K name v = .ok c → Reachable c
  | clone (a : ChunkedArray) : Reachable a → Reachable a.clone
  | add (a b c : ChunkedArray) : Reachable a → Reachable b →
      a.add b = .ok c → Reachable c
  | sub (a b c : ChunkedArray) : Reachable a → Reachable b →
      a.sub b = .ok c → Reachable c
  | mul (a b c : ChunkedArray) : Reachable a → Reachable b →
      a.mul b = .ok c → Reachable c

/-- The chunk a successful kernel application produces from the two
downcast operand chunks: elementwise `f` wrapped at the width of `t`, with
the validity bitmaps combined by AND (the specification-side description
the kernel outputs are compared against). -/
def mathResult (t : ArrowPrimitiveType) (f : Int → Int → Int)
    (l r : PrimitiveArray) : PrimitiveArray :=
  { dtype := t
    values := List.zipWith (fun x y => wrapNative t (f x y)) l.values r.values
    validity := List.zipWith (fun x y => x && y) l.validity r.validity }

/-- A sample single-chunk array (the shape `new` builds), used by the
concrete witnesses below. -/
def sampleA : ChunkedArray :=
  { field := { name := "a", data_type := .int32, nullable := true }
    chunks := [{ dtype := .int32, values := [1, 2], validity := [true, true] }]
    len := 2
    null_counts := 0
    phantom := .int32 }

/-- A second sample single-chunk array with a different field name. -/
def sampleB : ChunkedArray :=
  { field := { name := "b", data_type := .int32, nullable := true }
    chunks := [{ dtype := .int32, values := [3, 4], validity := [true, true] }]
    len := 2
    null_counts := 0
    phantom := .int32 }

/-- A sample array whose single chunk has length 1. -/
def sampleShort : ChunkedArray :=
  { field := { name := "c", data_type := .int32, nullable := true }
    chunks := [{ dtype := .int32, values := [5], validity := [true] }]
    len := 1
    null_counts := 0
    phantom := .int32 }

/-- A sample array with two chunks (such a value is expressible in the
struct even though the public constructors only build one chunk). -/
def sampleTwo : ChunkedArray :=
  { field := { name := "d", data_type := .int32, nullable := true }
    chunks := [{ dtype := .int32, values := [1], validity := [true] },
               { dtype := .int32, values := [2, 3], validity := [true, true] }]
    len := 3
    null_counts := 0
    phantom := .int32 }

/-- The value of `sampleA + sampleB`. -/
def sampleAddAB : ChunkedArray :=
  { field := { name := "a", data_type := .int32, nullable := true }
    chunks := [{ dtype := .int32, values := [4, 6], validity := [true, true] }]
    len := 2
    null_counts := 0
    phantom := .int32 }

/-- The value of `sampleA - sampleB`. -/
def sampleSubAB : ChunkedArray :=
  { field := { name := "a", data_type := .int32, nullable := true }
    chunks := [{ dtype := .int32, values := [-2, -2], validity := [true, true] }]
    len := 2
    null_counts := 0
    phantom := .int32 }

/-- The value of `sampleA * sampleB`. -/
def sampleMulAB : ChunkedArray :=
  { field := { name := "a", data_type := .int32, nullable := true }
    chunks := [{ dtype := .int32, values := [3, 8], validity := [true, true] }]
    len := 2
    null_counts := 0
    phantom := .int32 }

deriving instance DecidableEq for Except

/-- The builder loop of `new` appends the values in order and never hits
the panic branch of `expect`. -/
theorem append_loop (v : List Int) (b : PrimitiveBuilder) :
    v.foldlM appendStep b = .ok { dtype := b.dtype, values := b.values ++ v } := by
  induction v generalizing b with
  | nil =>
    simp [List.foldlM]
    rfl
  | cons a l ih =>
    rw [List.foldlM_cons]
    show List.foldlM appendStep { dtype := b.dtype, values := b.values ++ [a] } l = _
    rw [ih]
    simp

/-- Evaluation of `ChunkedArray::new`: one all-valid chunk holding `v`. -/
theorem new_ok (T K : ArrowPrimitiveType) (name : String) (v : List Int) :
    ChunkedArray.new T K name v =
      .ok { field := { name := name, data_type := K.get_data_type, nullable := true }
            chunks := [{ dtype := K, values := v, validity := List.replicate v.length true }]
            len := v.length
            null_counts := 0
            phantom := T } := by
  simp [ChunkedArray.new, append_loop, PrimitiveBuilder.new, PrimitiveBuilder.finish]

/-- A successful downcast means the runtime type tag matches and the
array is returned unchanged. -/
theorem downcast_ref_some {t : ArrowPrimitiveType} {a : ArrayRef} {b : PrimitiveArray}
    (h : downcast_ref t a = some b) : a.dtype = t ∧ b = a := by
  unfold downcast_ref at h
  split_ifs at h with hc
  · injection h with h2
    exact ⟨hc, h2.symm⟩

/-- Inversion of a successful kernel call: the operand lengths were equal
and the output is the elementwise result. -/
theorem math_op_ok_inv {f : Int → Int → Int} {l r res : PrimitiveArray}
    (h : math_op f l r = .ok res) :
    l.values.length = r.values.length ∧ res = mathResult l.dtype f l r := by
  unfold math_op at h
  split_ifs at h with hlen
  · injection h with h2
    exact ⟨hlen, h2.symm⟩

/-- When every zipped pair downcasts to `t` and has equal lengths, the
`variant_operand` loop succeeds and returns the elementwise result per
pair. -/
theorem variantChunks_ok (t : ArrowPrimitiveType) (f : Int → Int → Int) (msg : String)
    (ps : List (ArrayRef × ArrayRef))
    (hd : ∀ p ∈ ps, p.1.dtype = t ∧ p.2.dtype = t)
    (hl : ∀ p ∈ ps, p.1.values.length = p.2.values.length) :
    variantChunks t (math_op f) msg ps = .ok (ps.map fun p => mathResult t f p.1 p.2) := by
  induction ps with
  | nil => simp [variantChunks]
  | cons p rest ih =>
    obtain ⟨l, r⟩ := p
    simp only [List.mem_cons, forall_eq_or_imp] at hd hl
    have ih2 := ih hd.2 hl.2
    simp [variantChunks, downcast_ref, hd.1.1, hd.1.2, math_op, hl.1, ih2, mathResult]

/-- Inversion of a successful `variant_operand` loop: every zipped pair
downcast to `t`, every pair had equal lengths, and the output is exactly
the per-pair elementwise result. -/
theorem variantChunks_ok_inv (t : ArrowPrimitiveType) (f : Int → Int → Int) (msg : String) :
    ∀ (ps : List (ArrayRef × ArrayRef)) (out : List ArrayRef),
    variantChunks t (math_op f) msg ps = .ok out →
    (∀ p ∈ ps, p.1.dtype = t ∧ p.2.dtype = t ∧ p.1.values.length = p.2.values.length)
      ∧ out = ps.map fun p => mathResult t f p.1 p.2 := by
  intro ps
  induction ps with
  | nil =>
    intro out h
    simp only [variantChunks] at h
    injection h with h2
    subst h2
    simp
  | cons p rest ih =>
    obtain ⟨l, r⟩ := p
    intro out h
    rw [variantChunks] at h
    cases hdl : downcast_ref t l with
    | none => simp only [hdl] at h; simp at h
    | some left =>
      simp only [hdl] at h
      cases hdr : downcast_ref t r with
      | none => simp only [hdr] at h; simp at h
      | some right =>
        simp only [hdr] at h
        obtain ⟨hlt, hle⟩ := downcast_ref_some hdl
        obtain ⟨hrt, hre⟩ := downcast_ref_some hdr
        subst hle hre
        cases hmo : math_op f left right with
        | error e => simp only [hmo] at h; simp at h
        | ok res =>
          simp only [hmo] at h
          obtain ⟨hlen, hres⟩ := math_op_ok_inv hmo
          cases hrest : variantChunks t (math_op f) msg rest with
          | error e => simp only [hrest] at h; simp at h
          | ok tail =>
            simp only [hrest] at h
            injection h with h2
            obtain ⟨hall, htail⟩ := ih tail hrest
            subst htail
            refine ⟨?_, ?_⟩
            · intro q hq
              rcases List.mem_cons.mp hq with hq1 | hq2
              · subst hq1; exact ⟨hlt, hrt, hlen⟩
              · exact hall q hq2
            · rw [← h2, hres, hlt]
              simp [mathResult]

/-- A successful operator application keeps the left operand's metadata
(via `copy_with_array`) and takes its chunks from the loop output. -/
theorem variant_operand_ok_meta {t : ArrowPrimitiveType}
    {op : PrimitiveArray → PrimitiveArray → Except String PrimitiveArray}
    {msg : String} {a b r : ChunkedArray}
    (h : variant_operand t op msg a b = .ok r) :
    r.field = a.field ∧ r.len = a.len ∧ r.null_counts = a.null_counts ∧
      r.phantom = a.phantom ∧
      ∃ out, variantChunks t op msg (a.chunks.zip b.chunks) = .ok out ∧ r.chunks = out := by
  unfold variant_operand at h
  cases hvc : variantChunks t op msg (a.chunks.zip b.chunks) with
  | error e => simp only [hvc] at h; simp at h
  | ok out =>
    simp only [hvc] at h
    injection h with h2
    subst h2
    exact ⟨rfl, rfl, rfl, rfl, out, rfl, rfl⟩

/-- The chunks of a successful operator application are the per-pair
elementwise results over the zip of the operand chunk lists. -/
theorem op_ok_chunks {t : ArrowPrimitiveType} {f : Int → Int → Int} {msg : String}
    {a b r : ChunkedArray}
    (h : variant_operand t (math_op f) msg a b = .ok r) :
    r.chunks = (a.chunks.zip b.chunks).map fun p => mathResult t f p.1 p.2 := by
  obtain ⟨-, -, -, -, out, hout, hch⟩ := variant_operand_ok_meta h
  rw [hch, (variantChunks_ok_inv t f msg _ out hout).2]

/-- A successful operator application to two single-chunk arrays whose
left `len` matches its chunk restores the length bookkeeping invariant. -/
theorem op_ok_single {t : ArrowPrimitiveType} {f : Int → Int → Int} {msg : String}
    {a b c : ChunkedArray} {la lb : PrimitiveArray}
    (ha : a.chunks = [la]) (hb : b.chunks = [lb]) (halen : a.len = la.values.length)
    (h : variant_operand t (math_op f) msg a b = .ok c) :
    c.len = chunkLenSum c ∧ c.chunks.length = 1 := by
  obtain ⟨-, hlen, -, -, out, hout, hch⟩ := variant_operand_ok_meta h
  rw [ha, hb] at hout
  have hinv := variantChunks_ok_inv t f msg _ out hout
  have hpair := hinv.1 (la, lb) (by simp [List.zip])
  have hout2 := hinv.2
  simp [List.zip] at hout2
  constructor
  · rw [hlen, halen, chunkLenSum, hch, hout2]
    simp [mathResult, PrimitiveArray.len, hpair.2.2]
  · rw [hch, hout2]
    simp

/-- Every reachable `ChunkedArray` keeps `len` equal to the sum of its
chunk lengths and has exactly one chunk. -/
theorem reachable_invariant {c : ChunkedArray} (h : Reachable c) :
    c.len = chunkLenSum c ∧ c.chunks.length = 1 := by
  induction h with
  | new T K name v c hnew =>
    rw [new_ok] at hnew
    injection hnew with h2
    subst h2
    simp [chunkLenSum, PrimitiveArray.len]
  | clone a _ ih =>
    simpa [ChunkedArray.clone, chunkLenSum] using ih
  | add a b c _ _ hop iha ihb =>
    obtain ⟨la, ha⟩ := List.length_eq_one.mp iha.2
    obtain ⟨lb, hb⟩ := List.length_eq_one.mp ihb.2
    have halen : a.len = la.values.length := by
      rw [iha.1, chunkLenSum, ha]; simp [PrimitiveArray.len]
    exact op_ok_single ha hb halen hop
  | sub a b c _ _ hop iha ihb =>
    obtain ⟨la, ha⟩ := List.length_eq_one.mp iha.2
    obtain ⟨lb, hb⟩ := List.length_eq_one.mp ihb.2
    have halen : a.len = la.values.length := by
      rw [iha.1, chunkLenSum, ha]; simp [PrimitiveArray.len]
    exact op_ok_single ha hb halen hop
  | mul a b c _ _ hop iha ihb =>
    obtain ⟨la, ha⟩ := List.length_eq_one.mp iha.2
    obtain ⟨lb, hb⟩ := List.length_eq_one.mp ihb.2
    have halen : a.len = la.values.length := by
      rw [iha.1, chunkLenSum, ha]; simp [PrimitiveArray.len]
    exact op_ok_single ha hb halen hop

/-- Full evaluation of an arithmetic operator under matching types and
lengths. -/
theorem op_eval {t : ArrowPrimitiveType} {f : Int → Int → Int} {msg : String}
    (a b : ChunkedArray)
    (hd : ∀ p ∈ a.chunks.zip b.chunks, p.1.dtype = t ∧ p.2.dtype = t)
    (hl : ∀ p ∈ a.chunks.zip b.chunks, p.1.values.length = p.2.values.length) :
    variant_operand t (math_op f) msg a b =
      .ok (a.copy_with_array ((a.chunks.zip b.chunks).map
        fun p => mathResult t f p.1 p.2)) := by
  unfold variant_operand
  rw [variantChunks_ok _ _ _ _ hd hl]

/-- For a commutative kernel the chunk values of the two operand orders
agree. -/
theorem op_values_comm {t : ArrowPrimitiveType} {f : Int → Int → Int} {msg : String}
    (hf : ∀ x y : Int, f x y = f y x) {a b r s : ChunkedArray}
    (hr : variant_operand t (math_op f) msg a b = .ok r)
    (hs : variant_operand t (math_op f) msg b a = .ok s) :
    r.chunks.map PrimitiveArray.values = s.chunks.map PrimitiveArray.values := by
  rw [op_ok_chunks hr, op_ok_chunks hs]
  rw [← List.zip_swap a.chunks b.chunks]
  simp only [List.map_map]
  apply List.map_congr_left
  intro p _
  simp only [Function.comp, mathResult, Prod.fst_swap, Prod.snd_swap]
  exact List.zipWith_comm_of_comm _ (fun x y => by rw [hf]) _ _

/-- C1: for two `ChunkedArray` operands with the same number of chunks,
where each corresponding chunk pair has equal length and runtime type
matching the arrays' element type `T`, the operators `+`, `-` and `*`
return (without panicking) a `ChunkedArray` whose k-th chunk is the
elementwise sum / difference / product of the operands' k-th chunks, the
integer arithmetic wrapping modulo `2 ^ w` for the width-w element type,
each chunk pair being handed to the external add / subtract / multiply
compute kernel. -/
theorem arith_ops_elementwise (a b : ChunkedArray)
    (hn : a.chunks.length = b.chunks.length)
    (hd : ∀ p ∈ a.chunks.zip b.chunks, p.1.dtype = a.phantom ∧ p.2.dtype = a.phantom)
    (hl : ∀ p ∈ a.chunks.zip b.chunks, p.1.values.length = p.2.values.length) :
    a.add b = .ok (a.copy_with_array ((a.chunks.zip b.chunks).map
      fun p => mathResult a.phantom (fun x y => x + y) p.1 p.2)) ∧
    a.sub b = .ok (a.copy_with_array ((a.chunks.zip b.chunks).map
      fun p => mathResult a.phantom (fun x y => x - y) p.1 p.2)) ∧
    a.mul b = .ok (a.copy_with_array ((a.chunks.zip b.chunks).map
      fun p => mathResult a.phantom (fun x y => x * y) p.1 p.2)) :=
  ⟨op_eval a b hd hl, op_eval a b hd hl, op_eval a b hd hl⟩

/-- Witness for C1 at two concrete equal-shape int32 arrays. -/
theorem arith_ops_elementwise_witness :
    (sampleA.chunks.length = sampleB.chunks.length ∧
     (∀ p ∈ sampleA.chunks.zip sampleB.chunks,
        p.1.dtype = sampleA.phantom ∧ p.2.dtype = sampleA.phantom) ∧
     (∀ p ∈ sampleA.chunks.zip sampleB.chunks,
        p.1.values.length = p.2.values.length)) ∧
    (sampleA.add sampleB = .ok (sampleA.copy_with_array
        ((sampleA.chunks.zip sampleB.chunks).map
          fun p => mathResult sampleA.phantom (fun x y => x + y) p.1 p.2)) ∧
     sampleA.sub sampleB = .ok (sampleA.copy_with_array
        ((sampleA.chunks.zip sampleB.chunks).map
          fun p => mathResult sampleA.phantom (fun x y => x - y) p.1 p.2)) ∧
     sampleA.mul sampleB = .ok (sampleA.copy_with_array
        ((sampleA.chunks.zip sampleB.chunks).map
          fun p => mathResult sampleA.phantom (fun x y => x * y) p.1 p.2))) :=
  ⟨⟨by decide, by decide, by decide⟩,
   arith_ops_elementwise sampleA sampleB (by decide) (by decide) (by decide)⟩

/-- C2: every `ChunkedArray` reachable through the public surface of the
repository (built by `new`, cloned by `clone`, or produced by a
non-panicking `+`, `-` or `*`) has its cached `len` field equal to the sum
of the lengths of its chunks. -/
theorem reachable_len_eq_chunkLenSum (c : ChunkedArray) (h : Reachable c) :
    c.len = chunkLenSum c :=
  (reachable_invariant h).1

/-- Witness for C2 at a concrete array built by `new`. -/
theorem reachable_len_eq_chunkLenSum_witness :
    Reachable sampleA ∧ sampleA.len = chunkLenSum sampleA :=
  have hr : Reachable sampleA := Reachable.new .int32 .int32 "a" [1, 2] sampleA (by decide)
  ⟨hr, reachable_len_eq_chunkLenSum sampleA hr⟩

/-- C3: when a fallible call into the external library fails inside an
operation — here the compute kernel rejecting two corresponding operand
chunks of mismatched lengths — the operation panics (modelled as the
`.error` outcome carrying the `expect` panic message) instead of returning
a handled error value. -/
theorem ops_panic_on_chunk_length_mismatch (a b : ChunkedArray) (la lb : PrimitiveArray)
    (hca : a.chunks = [la]) (hcb : b.chunks = [lb])
    (hda : la.dtype = a.phantom) (hdb : lb.dtype = a.phantom)
    (hlen : la.values.length ≠ lb.values.length) :
    a.add b = .error "Could not add, check data types and length: Cannot perform math operation on arrays of different length" ∧
    a.sub b = .error "Could not subtract, check data types and length: Cannot perform math operation on arrays of different length" ∧
    a.mul b = .error "Could not multiply, check data types and length: Cannot perform math operation on arrays of different length" := by
  refine ⟨?_, ?_, ?_⟩ <;>
    simp [ChunkedArray.add, ChunkedArray.sub, ChunkedArray.mul, variant_operand, hca, hcb,
      variantChunks, downcast_ref, hda, hdb, compute.add, compute.subtract, compute.multiply,
      math_op, hlen]

/-- Witness for C3 at two concrete int32 arrays of lengths 2 and 1. -/
theorem ops_panic_on_chunk_length_mismatch_witness :
    (sampleA.chunks = [{ dtype := .int32, values := [1, 2], validity := [true, true] }] ∧
     sampleShort.chunks = [{ dtype := .int32, values := [5], validity := [true] }] ∧
     (2 : Nat) ≠ 1) ∧
    (sampleA.add sampleShort = .error "Could not add, check data types and length: Cannot perform math operation on arrays of different length" ∧
     sampleA.sub sampleShort = .error "Could not subtract, check data types and length: Cannot perform math operation on arrays of different length" ∧
     sampleA.mul sampleShort = .error "Could not multiply, check data types and length: Cannot perform math operation on arrays of different length") :=
  ⟨⟨by decide, by decide, by decide⟩,
   ops_panic_on_chunk_length_mismatch sampleA sampleShort
     { dtype := .int32, values := [1, 2], validity := [true, true] }
     { dtype := .int32, values := [5], validity := [true] }
     (by decide) (by decide) (by decide) (by decide) (by decide)⟩

/-- C4: `ChunkedArray::new(name, v)` with builder type `K` returns a
`ChunkedArray` with exactly one chunk holding precisely the values of `v`
in order with no nulls, `len` equal to the length of `v`, `null_counts`
zero, and a field named `name` with data type `K::get_data_type()` marked
nullable. -/
theorem new_builds_single_chunk (T K : ArrowPrimitiveType) (name : String) (v : List Int) :
    ChunkedArray.new T K name v =
      .ok { field := { name := name, data_type := K.get_data_type, nullable := true }
            chunks := [{ dtype := K, values := v, validity := List.replicate v.length true }]
            len := v.length
            null_counts := 0
            phantom := T } :=
  new_ok T K name v

/-- C5: when the operands of `+`, `-` or `*` have different chunk counts
n and m (but the zipped pairs are type- and length-compatible), the
operator succeeds anyway: the zip pairing stops at the shorter operand, so
the result has `min n m` chunks, while `len` and `null_counts` are still
copied unchanged from the left operand. -/
theorem ops_truncate_to_min_chunks (a b : ChunkedArray)
    (hnm : a.chunks.length ≠ b.chunks.length)
    (hd : ∀ p ∈ a.chunks.zip b.chunks, p.1.dtype = a.phantom ∧ p.2.dtype = a.phantom)
    (hl : ∀ p ∈ a.chunks.zip b.chunks, p.1.values.length = p.2.values.length) :
    (∃ r, a.add b = .ok r ∧ r.chunks.length = min a.chunks.length b.chunks.length ∧
      r.len = a.len ∧ r.null_counts = a.null_counts) ∧
    (∃ r, a.sub b = .ok r ∧ r.chunks.length = min a.chunks.length b.chunks.length ∧
      r.len = a.len ∧ r.null_counts = a.null_counts) ∧
    (∃ r, a.mul b = .ok r ∧ r.chunks.length = min a.chunks.length b.chunks.length ∧
      r.len = a.len ∧ r.null_counts = a.null_counts) := by
  refine ⟨⟨_, op_eval a b hd hl, ?_, rfl, rfl⟩,
          ⟨_, op_eval a b hd hl, ?_, rfl, rfl⟩,
          ⟨_, op_eval a b hd hl, ?_, rfl, rfl⟩⟩ <;>
    simp [ChunkedArray.copy_with_array, List.length_zip]

/-- Witness for C5 at a two-chunk left operand and one-chunk right
operand. -/
theorem ops_truncate_to_min_chunks_witness :
    (sampleTwo.chunks.length ≠ sampleShort.chunks.length ∧
     (∀ p ∈ sampleTwo.chunks.zip sampleShort.chunks,
        p.1.dtype = sampleTwo.phantom ∧ p.2.dtype = sampleTwo.phantom) ∧
     (∀ p ∈ sampleTwo.chunks.zip sampleShort.chunks,
        p.1.values.length = p.2.values.length)) ∧
    ((∃ r, sampleTwo.add sampleShort = .ok r ∧
        r.chunks.length = min sampleTwo.chunks.length sampleShort.chunks.length ∧
        r.len = sampleTwo.len ∧ r.null_counts = sampleTwo.null_counts) ∧
     (∃ r, sampleTwo.sub sampleShort = .ok r ∧
        r.chunks.length = min sampleTwo.chunks.length sampleShort.chunks.length ∧
        r.len = sampleTwo.len ∧ r.null_counts = sampleTwo.null_counts) ∧
     (∃ r, sampleTwo.mul sampleShort = .ok r ∧
        r.chunks.length = min sampleTwo.chunks.length sampleShort.chunks.length ∧
        r.len = sampleTwo.len ∧ r.null_counts = sampleTwo.null_counts)) :=
  ⟨⟨by decide, by decide, by decide⟩,
   ops_truncate_to_min_chunks sampleTwo sampleShort (by decide) (by decide) (by decide)⟩

/-- C6: whenever `+`, `-` or `*` returns without panicking, the result's
`field`, `len` and `null_counts` are exactly those of the left operand;
only the chunks vector is newly computed. -/
theorem ops_metadata_from_left_operand (a b r s u : ChunkedArray) :
    (a.add b = .ok r → r.field = a.field ∧ r.len = a.len ∧ r.null_counts = a.null_counts) ∧
    (a.sub b = .ok s → s.field = a.field ∧ s.len = a.len ∧ s.null_counts = a.null_counts) ∧
    (a.mul b = .ok u → u.field = a.field ∧ u.len = a.len ∧ u.null_counts = a.null_counts) := by
  refine ⟨fun h => ?_, fun h => ?_, fun h => ?_⟩ <;>
  · obtain ⟨h1, h2, h3, -, -⟩ := variant_operand_ok_meta h
    exact ⟨h1, h2, h3⟩

/-- Witness for C6 at concrete operands and their concrete results. -/
theorem ops_metadata_from_left_operand_witness :
    (sampleA.add sampleB = .ok sampleAddAB ∧
      sampleAddAB.field = sampleA.field ∧ sampleAddAB.len = sampleA.len ∧
      sampleAddAB.null_counts = sampleA.null_counts) ∧
    (sampleA.sub sampleB = .ok sampleSubAB ∧
      sampleSubAB.field = sampleA.field ∧ sampleSubAB.len = sampleA.len ∧
      sampleSubAB.null_counts = sampleA.null_counts) ∧
    (sampleA.mul sampleB = .ok sampleMulAB ∧
      sampleMulAB.field = sampleA.field ∧ sampleMulAB.len = sampleA.len ∧
      sampleMulAB.null_counts = sampleA.null_counts) :=
  have hmeta := ops_metadata_from_left_operand sampleA sampleB sampleAddAB sampleSubAB sampleMulAB
  ⟨⟨by decide, hmeta.1 (by decide)⟩,
   ⟨by decide, hmeta.2.1 (by decide)⟩,
   ⟨by decide, hmeta.2.2 (by decide)⟩⟩

/-- C7: under per-pair equal lengths, the downcasts inside the arithmetic
operators all succeed precisely when every zipped chunk of both operands
carries the runtime type `T` of the array; and for an array built by `new`
with a builder type `K` different from `T`, the operator panics with the
unwrap message rather than returning a handled error. -/
theorem downcast_succeeds_iff_types_match (a b : ChunkedArray)
    (T K : ArrowPrimitiveType) (name : String) (v : List Int)
    (hl : ∀ p ∈ a.chunks.zip b.chunks, p.1.values.length = p.2.values.length)
    (hTK : K ≠ T) :
    ((∃ r, a.add b = .ok r) ↔
      ∀ p ∈ a.chunks.zip b.chunks, p.1.dtype = a.phantom ∧ p.2.dtype = a.phantom) ∧
    (∀ c, ChunkedArray.new T K name v = .ok c → c.add c = .error unwrapNoneMsg) := by
  constructor
  · constructor
    · rintro ⟨r, hr⟩
      obtain ⟨-, -, -, -, out, hout, -⟩ := variant_operand_ok_meta hr
      intro p hp
      have h3 := (variantChunks_ok_inv a.phantom (fun x y => x + y)
        "Could not add, check data types and length" _ out hout).1 p hp
      exact ⟨h3.1, h3.2.1⟩
    · intro hd
      exact ⟨_, op_eval a b hd hl⟩
  · intro c hc
    rw [new_ok] at hc
    injection hc with h2
    subst h2
    simp [ChunkedArray.add, variant_operand, variantChunks, downcast_ref, hTK]

/-- Witness for C7 at concrete matching arrays and a concrete `new` of
int8 chunks inside an int32-typed array. -/
theorem downcast_succeeds_iff_types_match_witness :
    ((∀ p ∈ sampleA.chunks.zip sampleB.chunks,
        p.1.values.length = p.2.values.length) ∧
     ArrowPrimitiveType.int8 ≠ ArrowPrimitiveType.int32) ∧
    (((∃ r, sampleA.add sampleB = .ok r) ↔
       ∀ p ∈ sampleA.chunks.zip sampleB.chunks,
         p.1.dtype = sampleA.phantom ∧ p.2.dtype = sampleA.phantom) ∧
     (∀ c, ChunkedArray.new .int32 .int8 "x" [1] = .ok c →
        c.add c = .error unwrapNoneMsg)) :=
  ⟨⟨by decide, by decide⟩,
   downcast_succeeds_iff_types_match sampleA sampleB .int32 .int8 "x" [1]
     (by decide) (by decide)⟩

/-- C8: for operands of the same element type on which `+` (respectively
`*`) does not panic, the chunk values of `a + b` equal those of `b + a`
(and likewise for `*`), the elementwise wrapping arithmetic being
commutative; the full results can still differ, since `field`, `len` and
`null_counts` come from the left operand. -/
theorem add_mul_chunk_values_comm (a b r s u w : ChunkedArray)
    (hph : b.phantom = a.phantom) :
    (a.add b = .ok r → b.add a = .ok s →
      r.chunks.map PrimitiveArray.values = s.chunks.map PrimitiveArray.values) ∧
    (a.mul b = .ok u → b.mul a = .ok w →
      u.chunks.map PrimitiveArray.values = w.chunks.map PrimitiveArray.values) ∧
    (∃ a2 b2 r2 s2 : ChunkedArray, a2.add b2 = .ok r2 ∧ b2.add a2 = .ok s2 ∧
      r2.chunks.map PrimitiveArray.values = s2.chunks.map PrimitiveArray.values ∧
      r2 ≠ s2) := by
  refine ⟨fun hr hs => ?_, fun hu hw => ?_, ?_⟩
  · have hs2 : variant_operand b.phantom (math_op fun x y => x + y)
        "Could not add, check data types and length" b a = .ok s := hs
    rw [hph] at hs2
    exact op_values_comm (fun x y => Int.add_comm x y) hr hs2
  · have hw2 : variant_operand b.phantom (math_op fun x y => x * y)
        "Could not multiply, check data types and length" b a = .ok w := hw
    rw [hph] at hw2
    exact op_values_comm (fun x y => Int.mul_comm x y) hu hw2
  · refine ⟨sampleA, sampleB, sampleAddAB,
      { field := { name := "b", data_type := .int32, nullable := true }
        chunks := [{ dtype := .int32, values := [4, 6], validity := [true, true] }]
        len := 2
        null_counts := 0
        phantom := .int32 }, by decide, by decide, by decide, by decide⟩

/-- Witness for C8 at concrete operands, discharging the non-panic
hypotheses by evaluation. -/
theorem add_mul_chunk_values_comm_witness :
    sampleB.phantom = sampleA.phantom ∧
    (sampleA.add sampleB = .ok sampleAddAB ∧
     sampleB.add sampleA = .ok (sampleB.copy_with_array sampleAddAB.chunks) ∧
     sampleAddAB.chunks.map PrimitiveArray.values =
       (sampleB.copy_with_array sampleAddAB.chunks).chunks.map PrimitiveArray.values) ∧
    (sampleA.mul sampleB = .ok sampleMulAB ∧
     sampleB.mul sampleA = .ok (sampleB.copy_with_array sampleMulAB.chunks) ∧
     sampleMulAB.chunks.map PrimitiveArray.values =
       (sampleB.copy_with_array sampleMulAB.chunks).chunks.map PrimitiveArray.values) :=
  have h := add_mul_chunk_values_comm sampleA sampleB sampleAddAB
    (sampleB.copy_with_array sampleAddAB.chunks) sampleMulAB
    (sampleB.copy_with_array sampleMulAB.chunks) (by decide)
  ⟨by decide,
   ⟨by decide, by decide, h.1 (by decide) (by decide)⟩,
   ⟨by decide, by decide, h.2.1 (by decide) (by decide)⟩⟩

/-- C9: the owned-value operators `a + b`, `a - b` and `a * b` return
exactly the same result as the by-reference operators, being defined by
delegation to them. -/
theorem owned_ops_delegate_to_ref_ops (a b : ChunkedArray) :
    a.addOwned b = a.add b ∧ a.subOwned b = a.sub b ∧ a.mulOwned b = a.mul b :=
  ⟨rfl, rfl, rfl⟩

/-- C10: `clone` returns a `ChunkedArray` whose `field`, `len` and
`null_counts` equal the original's and whose chunks vector has the same
length with each entry referring to the same underlying array; the clone
is equal to the original, and cloning (a pure function here) leaves the
original unchanged. -/
theorem clone_preserves_all_fields (a : ChunkedArray) :
    a.clone.field = a.field ∧ a.clone.chunks = a.chunks ∧
    a.clone.chunks.length = a.chunks.length ∧
    a.clone.len = a.len ∧ a.clone.null_counts = a.null_counts ∧ a.clone = a :=
  ⟨rfl, rfl, rfl, rfl, rfl, rfl⟩

end Polars
